import Mathlib

/-!
Shallow embedding of the channel path geometry core of the mmft-rs framework
(src/framework/src/base/channel.rs and src/framework/src/base/primitives.rs).

Coordinates are modelled as exact rationals: the source stores f64 values
(every finite f64 is a rational), compares them with exact equality, and the
orientation test is the robust predicate geometry_predicates::orient2d, whose
contract is the exact sign of the 2x2 determinant of its inputs.  Derived
numeric quantities (radius, arc length) are modelled over the real numbers.
A Rust panic is modelled as Option.none.
-/

namespace Mmft

/-- A two-dimensional point, mirroring `Point(pub [f64; 2])`. -/
@[ext]
structure Point where
  x : ℚ
  y : ℚ
deriving DecidableEq

/-- Exact sign-of-area orientation test, the contract of
`geometry_predicates::orient2d`: positive iff pa, pb, pc occur in
counterclockwise order. -/
def orient2d (pa pb pc : Point) : ℚ :=
  (pa.x - pc.x) * (pb.y - pc.y) - (pa.y - pc.y) * (pb.x - pc.x)

/-- Real-valued Euclidean norm of the pair (a, b), mirroring `f64::hypot`. -/
noncomputable def hypotR (a b : ℝ) : ℝ :=
  Real.sqrt (a ^ 2 + b ^ 2)

/-- Euclidean distance between two points, `f64::hypot` of the coordinate
differences as the source computes it. -/
noncomputable def distR (p q : Point) : ℝ :=
  hypotR ((p.x : ℝ) - (q.x : ℝ)) ((p.y : ℝ) - (q.y : ℝ))

/-- A straight line segment (`LineSegment`); the source's field `end` is a
Lean keyword, rendered here as `endPoint`. -/
structure LineSegment where
  start : Point
  endPoint : Point
deriving DecidableEq

/-- An arc segment (`Arc`). -/
structure Arc where
  right : Bool
  start : Point
  endPoint : Point
  center : Point
deriving DecidableEq

/-- One token of the rendered path-command string, keeping the numeric
fields structured: `move x y` stands for "M x y ", `line x y` for "L x y ",
and `arc r laf sf x y` for "A r r 0 laf sf x y ". -/
inductive SVGCmd
  | move (x y : ℚ)
  | line (x y : ℚ)
  | arc (r : ℝ) (largeArcFlag sweepFlag : Bool) (x y : ℚ)

/-- Single piece of a path (`PathPiece`). -/
inductive PathPiece
  | arc (a : Arc)
  | lineSegment (l : LineSegment)
deriving DecidableEq

/-- A continuous channel path (`ChannelPath`). -/
structure ChannelPath where
  pieces : List PathPiece

/-- Start point of a path piece, as read by `ChannelPath::svg_path_command`
when emitting the leading move-to. -/
def PathPiece.startPoint : PathPiece → Point
  | PathPiece.arc a => a.start
  | PathPiece.lineSegment l => l.start

/-- Length of a line segment: Euclidean distance of its endpoints
(`impl SVGPath for LineSegment`, `length`). -/
noncomputable def LineSegment.length (l : LineSegment) : ℝ :=
  hypotR ((l.start.x : ℝ) - (l.endPoint.x : ℝ)) ((l.start.y : ℝ) - (l.endPoint.y : ℝ))

/-- Rendered command of a line segment: always the single token
`L end.x end.y`, ignoring the inversion flag
(`impl SVGPath for LineSegment`, `svg_path_command`). -/
def LineSegment.svg_path_command (l : LineSegment) (_invertY : Bool) : List SVGCmd :=
  [SVGCmd.line l.endPoint.x l.endPoint.y]

/-- The source's local `o0 = orient2d(self.start.0, self.center.0, self.end.0)`. -/
def Arc.o0 (a : Arc) : ℚ :=
  orient2d a.start a.center a.endPoint

/-- The source's local
`o1 = orient2d(self.start.0, [sx + sy - cy, sy + cx - sx], self.end.0)`. -/
def Arc.o1 (a : Arc) : ℚ :=
  orient2d a.start
    ⟨a.start.x + a.start.y - a.center.y, a.start.y + a.center.x - a.start.x⟩
    a.endPoint

/-- Arc classification `Arc::svg_representation_values`: derives
(radius, large-arc-flag, sweep-flag) from the arc and the inversion flag.
The two `panic!()` sites of the source are `none`. -/
noncomputable def Arc.svg_representation_values (a : Arc) (invert : Bool) :
    Option (ℝ × Bool × Bool) :=
  if a.start = a.endPoint then
    some (distR a.center a.start, true, false)
  else if a.start = a.center then
    none
  else if 0 < a.o0 then
    if 0 < a.o1 then
      some (distR a.center a.start, !a.right, Bool.xor (!a.right) invert)
    else if a.o1 < 0 then
      some (distR a.center a.start, !a.right, Bool.xor a.right invert)
    else
      none
  else if a.o0 < 0 then
    if 0 < a.o1 then
      some (distR a.center a.start, a.right, Bool.xor (!a.right) invert)
    else if a.o1 < 0 then
      some (distR a.center a.start, a.right, Bool.xor a.right invert)
    else
      none
  else
    if 0 < a.o1 then
      some (distR a.center a.start, false, Bool.xor (!a.right) invert)
    else if a.o1 < 0 then
      some (distR a.center a.start, false, Bool.xor a.right invert)
    else
      some (distR a.center a.start, false, false)

/-- The source's private helper `Arc::radius`. -/
noncomputable def Arc.radius (a : Arc) : ℝ :=
  hypotR ((a.start.x : ℝ) - (a.center.x : ℝ)) ((a.start.y : ℝ) - (a.center.y : ℝ))

/-- The chord length `s = f64::hypot(sx - ex, sy - ey)` of `Arc::length`. -/
noncomputable def Arc.chord (a : Arc) : ℝ :=
  hypotR ((a.start.x : ℝ) - (a.endPoint.x : ℝ)) ((a.start.y : ℝ) - (a.endPoint.y : ℝ))

/-- The minor-arc length local `short` of `Arc::length`:
`two_r * asin(s / two_r)` when the chord is below the diameter, else `r * pi`. -/
noncomputable def Arc.short (a : Arc) : ℝ :=
  if a.chord < 2 * a.radius then
    2 * a.radius * Real.arcsin (a.chord / (2 * a.radius))
  else
    a.radius * Real.pi

/-- Arc length as the source computes it (`impl SVGPath for Arc`, `length`):
note the large-arc branch returns `two_r - short`, i.e. `2 r - short`. -/
noncomputable def Arc.length (a : Arc) : Option ℝ :=
  (a.svg_representation_values false).map fun v =>
    if v.2.1 then 2 * a.radius - a.short else a.short

/-- Arc length as section 4.4 of the specification states it: identical to
`Arc.length` except that the large-arc branch is `2 pi r - short` (the full
circumference minus the minor arc). -/
noncomputable def Arc.lengthSpec (a : Arc) : Option ℝ :=
  (a.svg_representation_values false).map fun v =>
    if v.2.1 then 2 * Real.pi * a.radius - a.short else a.short

/-- Rendered command of an arc (`impl SVGPath for Arc`, `svg_path_command`):
the classification's triple followed by the stored end point, raw. -/
noncomputable def Arc.svg_path_command (a : Arc) (invertY : Bool) :
    Option (List SVGCmd) :=
  (a.svg_representation_values invertY).map fun v =>
    [SVGCmd.arc v.1 v.2.1 v.2.2 a.endPoint.x a.endPoint.y]

/-- Rendered command list of a whole path
(`impl SVGPath for ChannelPath`, `svg_path_command`): empty output for an
empty path, otherwise a move-to of the first piece's start point followed by
every piece's command in order. -/
noncomputable def ChannelPath.svg_path_command (p : ChannelPath) (invertY : Bool) :
    Option (List SVGCmd) :=
  match p.pieces with
  | [] => some []
  | first :: _ =>
    Option.map
      (fun cmds : List (List SVGCmd) =>
        SVGCmd.move first.startPoint.x first.startPoint.y :: cmds.flatten)
      (p.pieces.mapM fun piece =>
        match piece with
        | PathPiece.arc a => a.svg_path_command invertY
        | PathPiece.lineSegment l => some (l.svg_path_command invertY))

/-! Helper lemmas about the two orientation values. -/

/-- The first orientation value is the cross product of `center - start`
with `endPoint - start`. -/
theorem o0_eq_cross (a : Arc) :
    a.o0 = (a.center.x - a.start.x) * (a.endPoint.y - a.start.y) -
      (a.center.y - a.start.y) * (a.endPoint.x - a.start.x) := by
  unfold Arc.o0 orient2d
  ring

/-- The second orientation value is the negated dot product of
`center - start` with `endPoint - start`. -/
theorem o1_eq_neg_dot (a : Arc) :
    a.o1 = -((a.center.x - a.start.x) * (a.endPoint.x - a.start.x) +
      (a.center.y - a.start.y) * (a.endPoint.y - a.start.y)) := by
  unfold Arc.o1 orient2d
  ring

/-- With `start` distinct from `center`, both orientation values vanish only
in the fully degenerate situation `endPoint = start`: the chord direction
would have to be simultaneously parallel and orthogonal to the nonzero
vector from start to center. -/
theorem o0_o1_zero_degenerate (a : Arc) (hnc : a.start ≠ a.center)
    (h0 : a.o0 = 0) (h1 : a.o1 = 0) : a.endPoint = a.start := by
  rw [o0_eq_cross] at h0
  rw [o1_eq_neg_dot] at h1
  set ux := a.center.x - a.start.x with hux
  set uy := a.center.y - a.start.y with huy
  set vx := a.endPoint.x - a.start.x with hvx
  set vy := a.endPoint.y - a.start.y with hvy
  have hu : ux ≠ 0 ∨ uy ≠ 0 := by
    by_contra hcon
    push_neg at hcon
    apply hnc
    ext
    · have := hcon.1
      rw [hux] at this
      linarith
    · have := hcon.2
      rw [huy] at this
      linarith
  have husq : 0 < ux ^ 2 + uy ^ 2 := by
    rcases hu with h | h
    · have h2 : 0 < ux ^ 2 := lt_of_le_of_ne (sq_nonneg ux) (Ne.symm (pow_ne_zero 2 h))
      nlinarith [sq_nonneg uy]
    · have h2 : 0 < uy ^ 2 := lt_of_le_of_ne (sq_nonneg uy) (Ne.symm (pow_ne_zero 2 h))
      nlinarith [sq_nonneg ux]
  have hx : (ux ^ 2 + uy ^ 2) * vx = 0 := by linear_combination ux * h1 * (-1) - uy * h0
  have hy : (ux ^ 2 + uy ^ 2) * vy = 0 := by linear_combination ux * h0 - uy * h1
  have hvx0 : vx = 0 := by
    rcases mul_eq_zero.mp hx with h | h
    · exact absurd h (ne_of_gt husq)
    · exact h
  have hvy0 : vy = 0 := by
    rcases mul_eq_zero.mp hy with h | h
    · exact absurd h (ne_of_gt husq)
    · exact h
  ext
  · rw [hvx] at hvx0
    linarith
  · rw [hvy] at hvy0
    linarith

/-- Distance evaluation helper: when the rational squared distance is
`r ^ 2` for a nonnegative rational `r`, the real distance is `r`. -/
theorem distR_eq_of_sq (p q : Point) (r : ℚ) (hr : 0 ≤ r)
    (h : (p.x - q.x) ^ 2 + (p.y - q.y) ^ 2 = r ^ 2) : distR p q = (r : ℝ) := by
  unfold distR hypotR
  have h2 : (((p.x - q.x) ^ 2 + (p.y - q.y) ^ 2 : ℚ) : ℝ) = ((r ^ 2 : ℚ) : ℝ) := by
    rw [h]
  push_cast at h2
  rw [h2]
  exact Real.sqrt_sq (by exact_mod_cast hr)

/-! Concrete inputs used below. -/

/-- Full-circle witness input: start and end coincide. -/
def arcW5 : Arc := ⟨false, ⟨1, 0⟩, ⟨1, 0⟩, ⟨0, 0⟩⟩

/-- Fully degenerate point arc: start, end and center all coincide. -/
def arcX6 : Arc := ⟨false, ⟨0, 0⟩, ⟨0, 0⟩, ⟨0, 0⟩⟩

/-- Point arc with distinct end: start coincides with center only. -/
def arcW6 : Arc := ⟨false, ⟨0, 0⟩, ⟨1, 0⟩, ⟨0, 0⟩⟩

/-- Degenerate zero-length line segment at the origin. -/
def lineX8 : LineSegment := ⟨⟨0, 0⟩, ⟨0, 0⟩⟩

/-- Degenerate zero-length line segment away from the origin. -/
def lineW8 : LineSegment := ⟨⟨2, 3⟩, ⟨2, 3⟩⟩

/-- First quarter-circle of the source's test suite. -/
def arcT1 : Arc := ⟨true, ⟨80, 80⟩, ⟨125, 125⟩, ⟨125, 80⟩⟩

/-- Second quarter-circle of the source's test suite. -/
def arcT2 : Arc := ⟨true, ⟨230, 80⟩, ⟨275, 125⟩, ⟨230, 125⟩⟩

/-- Third quarter-circle of the source's test suite. -/
def arcT3 : Arc := ⟨false, ⟨80, 230⟩, ⟨125, 275⟩, ⟨80, 275⟩⟩

/-- Fourth quarter-circle of the source's test suite. -/
def arcT4 : Arc := ⟨false, ⟨230, 230⟩, ⟨275, 275⟩, ⟨275, 230⟩⟩

/-- C5: for every arc whose start equals its end, classification returns
the radius `distance(center, start)`, large-arc-flag true and sweep-flag
false, for every `right` and every `invert`. -/
theorem c5_full_circle_convention (a : Arc) (invert : Bool) (h : a.start = a.endPoint) :
    a.svg_representation_values invert = some (distR a.center a.start, true, false) := by
  unfold Arc.svg_representation_values
  rw [if_pos h]

/-- Witness for C5 at a concrete full-circle arc. -/
theorem c5_full_circle_convention_witness :
    arcW5.start = arcW5.endPoint ∧
    arcW5.svg_representation_values true = some (distR arcW5.center arcW5.start, true, false) :=
  ⟨rfl, c5_full_circle_convention arcW5 true rfl⟩

/-- C6 counterexample: an arc whose start equals its center but also its
end is classified successfully (the full-circle branch fires first), so
classification does not abort on every `start = center` input. -/
theorem c6_counterexample_point_arc :
    arcX6.start = arcX6.center ∧ arcX6.svg_representation_values true ≠ none := by
  refine ⟨rfl, ?_⟩
  unfold Arc.svg_representation_values
  rw [if_pos (show arcX6.start = arcX6.endPoint from rfl)]
  simp

/-- C6 amended: classification aborts on `start = center` whenever the arc
is not the degenerate full circle, i.e. whenever `start ≠ end`. -/
theorem c6_start_eq_center_aborts (a : Arc) (invert : Bool)
    (hc : a.start = a.center) (hne : a.start ≠ a.endPoint) :
    a.svg_representation_values invert = none := by
  unfold Arc.svg_representation_values
  rw [if_neg hne, if_pos hc]

/-- Witness for the amended C6 at a concrete point arc. -/
theorem c6_start_eq_center_aborts_witness :
    arcW6.start = arcW6.center ∧ arcW6.start ≠ arcW6.endPoint ∧
    arcW6.svg_representation_values false = none :=
  ⟨rfl, by simp [arcW6], c6_start_eq_center_aborts arcW6 false rfl (by simp [arcW6])⟩

/-- C8 counterexample: the rendered command of a zero-length line segment
is the (non-empty) single token `L end.x end.y`, not an empty command. -/
theorem c8_counterexample_null_command :
    lineX8.start = lineX8.endPoint ∧ lineX8.svg_path_command true ≠ [] :=
  ⟨rfl, by simp [LineSegment.svg_path_command]⟩

/-- C8 amended: a zero-length segment is legal data of length 0, and its
rendered command is the single zero-length draw token `L end.x end.y`
(the same command every segment gets), not an empty command. -/
theorem c8_degenerate_segment (l : LineSegment) (invertY : Bool)
    (h : l.start = l.endPoint) :
    l.length = 0 ∧ l.svg_path_command invertY = [SVGCmd.line l.endPoint.x l.endPoint.y] := by
  refine ⟨?_, rfl⟩
  unfold LineSegment.length hypotR
  rw [h]
  simp

/-- Witness for the amended C8 at a concrete zero-length segment. -/
theorem c8_degenerate_segment_witness :
    lineW8.start = lineW8.endPoint ∧
    (lineW8.length = 0 ∧ lineW8.svg_path_command false = [SVGCmd.line 2 3]) :=
  ⟨rfl, c8_degenerate_segment lineW8 false rfl⟩

/-- C9: the four quarter-circle fixtures of the source's test suite
classify to radius 45 and the expected flag pairs under Y-inversion. -/
theorem c9_test_fixtures :
    arcT1.svg_representation_values true = some (45, false, false) ∧
    arcT2.svg_representation_values true = some (45, true, false) ∧
    arcT3.svg_representation_values true = some (45, false, true) ∧
    arcT4.svg_representation_values true = some (45, true, true) := by
  refine ⟨?_, ?_, ?_, ?_⟩
  · unfold Arc.svg_representation_values
    rw [if_neg (show ¬arcT1.start = arcT1.endPoint by norm_num [arcT1]),
      if_neg (show ¬arcT1.start = arcT1.center by norm_num [arcT1]),
      if_pos (show 0 < arcT1.o0 by norm_num [arcT1, Arc.o0, orient2d]),
      if_neg (show ¬0 < arcT1.o1 by norm_num [arcT1, Arc.o1, orient2d]),
      if_pos (show arcT1.o1 < 0 by norm_num [arcT1, Arc.o1, orient2d]),
      distR_eq_of_sq arcT1.center arcT1.start 45 (by norm_num) (by norm_num [arcT1])]
    norm_num [arcT1, Bool.xor]
  · unfold Arc.svg_representation_values
    rw [if_neg (show ¬arcT2.start = arcT2.endPoint by norm_num [arcT2]),
      if_neg (show ¬arcT2.start = arcT2.center by norm_num [arcT2]),
      if_neg (show ¬0 < arcT2.o0 by norm_num [arcT2, Arc.o0, orient2d]),
      if_pos (show arcT2.o0 < 0 by norm_num [arcT2, Arc.o0, orient2d]),
      if_neg (show ¬0 < arcT2.o1 by norm_num [arcT2, Arc.o1, orient2d]),
      if_pos (show arcT2.o1 < 0 by norm_num [arcT2, Arc.o1, orient2d]),
      distR_eq_of_sq arcT2.center arcT2.start 45 (by norm_num) (by norm_num [arcT2])]
    norm_num [arcT2, Bool.xor]
  · unfold Arc.svg_representation_values
    rw [if_neg (show ¬arcT3.start = arcT3.endPoint by norm_num [arcT3]),
      if_neg (show ¬arcT3.start = arcT3.center by norm_num [arcT3]),
      if_neg (show ¬0 < arcT3.o0 by norm_num [arcT3, Arc.o0, orient2d]),
      if_pos (show arcT3.o0 < 0 by norm_num [arcT3, Arc.o0, orient2d]),
      if_neg (show ¬0 < arcT3.o1 by norm_num [arcT3, Arc.o1, orient2d]),
      if_pos (show arcT3.o1 < 0 by norm_num [arcT3, Arc.o1, orient2d]),
      distR_eq_of_sq arcT3.center arcT3.start 45 (by norm_num) (by norm_num [arcT3])]
    norm_num [arcT3, Bool.xor]
  · unfold Arc.svg_representation_values
    rw [if_neg (show ¬arcT4.start = arcT4.endPoint by norm_num [arcT4]),
      if_neg (show ¬arcT4.start = arcT4.center by norm_num [arcT4]),
      if_pos (show 0 < arcT4.o0 by norm_num [arcT4, Arc.o0, orient2d]),
      if_neg (show ¬0 < arcT4.o1 by norm_num [arcT4, Arc.o1, orient2d]),
      if_pos (show arcT4.o1 < 0 by norm_num [arcT4, Arc.o1, orient2d]),
      distR_eq_of_sq arcT4.center arcT4.start 45 (by norm_num) (by norm_num [arcT4])]
    norm_num [arcT4, Bool.xor]

/-- Reference input for the o0 positive / o1 positive table row. -/
def arcW3 : Arc := ⟨true, ⟨1, 0⟩, ⟨2, -1⟩, ⟨0, 0⟩⟩

/-- Full-circle arc used to refute the unrestricted invert-toggling claim. -/
def arcX4 : Arc := ⟨false, ⟨0, 0⟩, ⟨0, 0⟩, ⟨1, 0⟩⟩

/-- Quarter-circle input for the invert-toggling witness. -/
def arcW4 : Arc := ⟨true, ⟨1, 0⟩, ⟨2, -1⟩, ⟨0, 0⟩⟩

/-- Quarter-circle on the unit circle, for the on-circle witness. -/
def arcW7 : Arc := ⟨true, ⟨1, 0⟩, ⟨0, 1⟩, ⟨0, 0⟩⟩

/-- C3: with start, end and center pairwise distinct as stated, the
classification follows the 3x3 sign table on o0 and o1: the large-arc-flag
is `!right`, `right`, or `false` as o0 is positive, negative, or zero, the
sweep-flag before inversion is `!right` or `right` as o1 is positive or
negative, and the final sweep-flag is that value XOR invert. -/
theorem c3_sign_table (a : Arc) (invert : Bool)
    (hne : a.start ≠ a.endPoint) (hnc : a.start ≠ a.center) :
    (0 < a.o0 → 0 < a.o1 → a.svg_representation_values invert =
      some (distR a.center a.start, !a.right, Bool.xor (!a.right) invert)) ∧
    (0 < a.o0 → a.o1 < 0 → a.svg_representation_values invert =
      some (distR a.center a.start, !a.right, Bool.xor a.right invert)) ∧
    (a.o0 < 0 → 0 < a.o1 → a.svg_representation_values invert =
      some (distR a.center a.start, a.right, Bool.xor (!a.right) invert)) ∧
    (a.o0 < 0 → a.o1 < 0 → a.svg_representation_values invert =
      some (distR a.center a.start, a.right, Bool.xor a.right invert)) ∧
    (a.o0 = 0 → 0 < a.o1 → a.svg_representation_values invert =
      some (distR a.center a.start, false, Bool.xor (!a.right) invert)) ∧
    (a.o0 = 0 → a.o1 < 0 → a.svg_representation_values invert =
      some (distR a.center a.start, false, Bool.xor a.right invert)) := by
  unfold Arc.svg_representation_values
  rw [if_neg hne, if_neg hnc]
  refine ⟨?_, ?_, ?_, ?_, ?_, ?_⟩ <;> intro h0 h1
  · rw [if_pos h0, if_pos h1]
  · rw [if_pos h0, if_neg (by linarith), if_pos h1]
  · rw [if_neg (by linarith), if_pos h0, if_pos h1]
  · rw [if_neg (by linarith), if_pos h0, if_neg (by linarith), if_pos h1]
  · rw [if_neg (by rw [h0]; exact lt_irrefl 0), if_neg (by rw [h0]; exact lt_irrefl 0),
      if_pos h1]
  · rw [if_neg (by rw [h0]; exact lt_irrefl 0), if_neg (by rw [h0]; exact lt_irrefl 0),
      if_neg (by linarith), if_pos h1]

/-- Witness for C3 at a concrete arc in the o0 positive / o1 positive row. -/
theorem c3_sign_table_witness :
    0 < arcW3.o0 ∧ 0 < arcW3.o1 ∧
    arcW3.svg_representation_values false =
      some (distR arcW3.center arcW3.start, !arcW3.right, Bool.xor (!arcW3.right) false) :=
  ⟨by norm_num [arcW3, Arc.o0, orient2d], by norm_num [arcW3, Arc.o1, orient2d],
    (c3_sign_table arcW3 false (by norm_num [arcW3]) (by norm_num [arcW3])).1
      (by norm_num [arcW3, Arc.o0, orient2d]) (by norm_num [arcW3, Arc.o1, orient2d])⟩

/-- Shared step for the invert-toggling proof: in every non-degenerate table
row, replacing the XOR argument false by true negates the sweep component. -/
theorem some_triple_flip {d r : ℝ} {L l y s : Bool}
    (h : (some (d, L, Bool.xor y false) : Option (ℝ × Bool × Bool)) = some (r, l, s)) :
    (some (d, L, Bool.xor y true) : Option (ℝ × Bool × Bool)) = some (r, l, !s) := by
  simp only [Option.some.injEq, Prod.mk.injEq, Bool.xor_false, Bool.xor_true] at h ⊢
  exact ⟨h.1, h.2.1, by rw [← h.2.2]⟩

/-- C4 counterexample: for a full-circle arc (start = end) the sweep-flag is
false under both values of invert, so toggling invert does not flip it. -/
theorem c4_counterexample_full_circle :
    Option.map (fun v : ℝ × Bool × Bool => v.2.2) (arcX4.svg_representation_values true) ≠
      Option.map (fun v : ℝ × Bool × Bool => !v.2.2) (arcX4.svg_representation_values false) := by
  unfold Arc.svg_representation_values
  rw [if_pos (show arcX4.start = arcX4.endPoint from rfl),
    if_pos (show arcX4.start = arcX4.endPoint from rfl)]
  simp

/-- C4 amended: for every arc with start distinct from end, whenever
classification with invert false returns a triple, classification with
invert true returns the same radius, the same large-arc-flag, and the
negated sweep-flag.  (For start = end both runs fix sweep to false, which
refutes the unrestricted claim.) -/
theorem c4_invert_toggles_sweep (a : Arc) (r : ℝ) (l s : Bool)
    (hne : a.start ≠ a.endPoint)
    (h : a.svg_representation_values false = some (r, l, s)) :
    a.svg_representation_values true = some (r, l, !s) := by
  unfold Arc.svg_representation_values at h ⊢
  rw [if_neg hne] at h ⊢
  by_cases hc : a.start = a.center
  · rw [if_pos hc] at h
    cases h
  · rw [if_neg hc] at h ⊢
    by_cases h0p : 0 < a.o0
    · rw [if_pos h0p] at h ⊢
      by_cases h1p : 0 < a.o1
      · rw [if_pos h1p] at h ⊢
        exact some_triple_flip h
      · rw [if_neg h1p] at h ⊢
        by_cases h1n : a.o1 < 0
        · rw [if_pos h1n] at h ⊢
          exact some_triple_flip h
        · rw [if_neg h1n] at h
          cases h
    · rw [if_neg h0p] at h ⊢
      by_cases h0n : a.o0 < 0
      · rw [if_pos h0n] at h ⊢
        by_cases h1p : 0 < a.o1
        · rw [if_pos h1p] at h ⊢
          exact some_triple_flip h
        · rw [if_neg h1p] at h ⊢
          by_cases h1n : a.o1 < 0
          · rw [if_pos h1n] at h ⊢
            exact some_triple_flip h
          · rw [if_neg h1n] at h
            cases h
      · rw [if_neg h0n] at h ⊢
        by_cases h1p : 0 < a.o1
        · rw [if_pos h1p] at h ⊢
          exact some_triple_flip h
        · rw [if_neg h1p] at h ⊢
          by_cases h1n : a.o1 < 0
          · rw [if_pos h1n] at h ⊢
            exact some_triple_flip h
          · exfalso
            exact hne (o0_o1_zero_degenerate a hc
              (le_antisymm (not_lt.mp h0p) (not_lt.mp h0n))
              (le_antisymm (not_lt.mp h1p) (not_lt.mp h1n))).symm

/-- Witness for the amended C4 at a concrete quarter-circle arc. -/
theorem c4_invert_toggles_sweep_witness :
    arcW4.svg_representation_values true =
      some (distR arcW4.center arcW4.start, false, true) :=
  c4_invert_toggles_sweep arcW4 (distR arcW4.center arcW4.start) false false
    (by norm_num [arcW4]) (by
      unfold Arc.svg_representation_values
      rw [if_neg (show ¬arcW4.start = arcW4.endPoint by norm_num [arcW4]),
        if_neg (show ¬arcW4.start = arcW4.center by norm_num [arcW4]),
        if_pos (show 0 < arcW4.o0 by norm_num [arcW4, Arc.o0, orient2d]),
        if_pos (show 0 < arcW4.o1 by norm_num [arcW4, Arc.o1, orient2d])]
      norm_num [arcW4, Bool.xor])

/-- On the on-circle invariant, the tangent-side orientation value is
strictly negative for any chord of positive length: the dot product of
`center - start` with `endPoint - start` equals half the squared chord. -/
theorem oncircle_o1_neg (a : Arc)
    (hcirc : distR a.center a.start = distR a.center a.endPoint)
    (hne : a.start ≠ a.endPoint) : a.o1 < 0 := by
  unfold distR hypotR at hcirc
  have hA : (0 : ℝ) ≤ ((a.center.x : ℝ) - a.start.x) ^ 2 + ((a.center.y : ℝ) - a.start.y) ^ 2 := by
    positivity
  have hB : (0 : ℝ) ≤ ((a.center.x : ℝ) - a.endPoint.x) ^ 2 + ((a.center.y : ℝ) - a.endPoint.y) ^ 2 := by
    positivity
  have hsq : ((a.center.x : ℝ) - a.start.x) ^ 2 + ((a.center.y : ℝ) - a.start.y) ^ 2 =
      ((a.center.x : ℝ) - a.endPoint.x) ^ 2 + ((a.center.y : ℝ) - a.endPoint.y) ^ 2 := by
    rw [← Real.sq_sqrt hA, ← Real.sq_sqrt hB, hcirc]
  have hQ : (a.center.x - a.start.x) ^ 2 + (a.center.y - a.start.y) ^ 2 =
      (a.center.x - a.endPoint.x) ^ 2 + (a.center.y - a.endPoint.y) ^ 2 := by
    exact_mod_cast hsq
  have h2 : 2 * ((a.center.x - a.start.x) * (a.endPoint.x - a.start.x) +
      (a.center.y - a.start.y) * (a.endPoint.y - a.start.y)) =
      (a.endPoint.x - a.start.x) ^ 2 + (a.endPoint.y - a.start.y) ^ 2 := by
    linear_combination hQ
  have hv0 : a.endPoint.x - a.start.x ≠ 0 ∨ a.endPoint.y - a.start.y ≠ 0 := by
    by_contra hcon
    push_neg at hcon
    apply hne
    ext
    · linarith [hcon.1]
    · linarith [hcon.2]
  have hv : 0 < (a.endPoint.x - a.start.x) ^ 2 + (a.endPoint.y - a.start.y) ^ 2 := by
    rcases hv0 with hx | hy
    · have := lt_of_le_of_ne (sq_nonneg (a.endPoint.x - a.start.x)) (Ne.symm (pow_ne_zero 2 hx))
      nlinarith [sq_nonneg (a.endPoint.y - a.start.y)]
    · have := lt_of_le_of_ne (sq_nonneg (a.endPoint.y - a.start.y)) (Ne.symm (pow_ne_zero 2 hy))
      nlinarith [sq_nonneg (a.endPoint.x - a.start.x)]
  rw [o1_eq_neg_dot]
  linarith

/-- C7: on the stated on-circle invariant, with start distinct from end and
from center, classification never reaches an abort branch: it always
returns a triple. -/
theorem c7_oncircle_never_aborts (a : Arc) (invert : Bool)
    (hcirc : distR a.center a.start = distR a.center a.endPoint)
    (hne : a.start ≠ a.endPoint) (hnc : a.start ≠ a.center) :
    a.svg_representation_values invert ≠ none := by
  have h1 := oncircle_o1_neg a hcirc hne
  unfold Arc.svg_representation_values
  rw [if_neg hne, if_neg hnc]
  by_cases h0p : 0 < a.o0
  · rw [if_pos h0p, if_neg (by linarith), if_pos h1]
    simp
  · rw [if_neg h0p]
    by_cases h0n : a.o0 < 0
    · rw [if_pos h0n, if_neg (by linarith), if_pos h1]
      simp
    · rw [if_neg h0n, if_neg (by linarith), if_pos h1]
      simp

/-- Witness for C7 at a concrete on-circle quarter arc. -/
theorem c7_oncircle_never_aborts_witness :
    distR arcW7.center arcW7.start = distR arcW7.center arcW7.endPoint ∧
    arcW7.svg_representation_values true ≠ none :=
  ⟨by norm_num [arcW7, distR, hypotR],
    c7_oncircle_never_aborts arcW7 true (by norm_num [arcW7, distR, hypotR])
      (by norm_num [arcW7]) (by norm_num [arcW7])⟩

/-- Major (large-arc) quarter-chord arc on the unit circle: right = true
makes the classification large. -/
def arcB1 : Arc := ⟨true, ⟨1, 0⟩, ⟨0, 1⟩, ⟨0, 0⟩⟩

/-- The complementary minor arc: same circle and endpoints, right = false. -/
def arcB2 : Arc := ⟨false, ⟨1, 0⟩, ⟨0, 1⟩, ⟨0, 0⟩⟩

/-- Classification of the major test arc: large-arc-flag true. -/
theorem arcB1_classification :
    arcB1.svg_representation_values false =
      some (distR arcB1.center arcB1.start, true, true) := by
  unfold Arc.svg_representation_values
  rw [if_neg (show ¬arcB1.start = arcB1.endPoint by norm_num [arcB1]),
    if_neg (show ¬arcB1.start = arcB1.center by norm_num [arcB1]),
    if_neg (show ¬0 < arcB1.o0 by norm_num [arcB1, Arc.o0, orient2d]),
    if_pos (show arcB1.o0 < 0 by norm_num [arcB1, Arc.o0, orient2d]),
    if_neg (show ¬0 < arcB1.o1 by norm_num [arcB1, Arc.o1, orient2d]),
    if_pos (show arcB1.o1 < 0 by norm_num [arcB1, Arc.o1, orient2d])]
  norm_num [arcB1, Bool.xor]

/-- Classification of the minor test arc: large-arc-flag false. -/
theorem arcB2_classification :
    arcB2.svg_representation_values false =
      some (distR arcB2.center arcB2.start, false, false) := by
  unfold Arc.svg_representation_values
  rw [if_neg (show ¬arcB2.start = arcB2.endPoint by norm_num [arcB2]),
    if_neg (show ¬arcB2.start = arcB2.center by norm_num [arcB2]),
    if_neg (show ¬0 < arcB2.o0 by norm_num [arcB2, Arc.o0, orient2d]),
    if_pos (show arcB2.o0 < 0 by norm_num [arcB2, Arc.o0, orient2d]),
    if_neg (show ¬0 < arcB2.o1 by norm_num [arcB2, Arc.o1, orient2d]),
    if_pos (show arcB2.o1 < 0 by norm_num [arcB2, Arc.o1, orient2d])]
  norm_num [arcB2, Bool.xor]

/-- The major test arc has positive radius. -/
theorem arcB1_radius_pos : 0 < arcB1.radius := by
  unfold Arc.radius hypotR
  apply Real.sqrt_pos.mpr
  norm_num [arcB1]

/-- C1: at a concrete large-arc input, the code's arc length is
`2 r - short`, not the `2 pi r - short` the claim states, and the two
values are provably different: the large-arc branch of `Arc::length`
subtracts from the diameter instead of the circumference. -/
theorem c1_large_arc_length_code_bug :
    arcB1.length = some (2 * arcB1.radius - arcB1.short) ∧
    arcB1.lengthSpec = some (2 * Real.pi * arcB1.radius - arcB1.short) ∧
    arcB1.length ≠ arcB1.lengthSpec := by
  refine ⟨?_, ?_, ?_⟩
  · unfold Arc.length
    rw [arcB1_classification]
    simp
  · unfold Arc.lengthSpec
    rw [arcB1_classification]
    simp
  · intro hcon
    unfold Arc.length Arc.lengthSpec at hcon
    rw [arcB1_classification] at hcon
    simp at hcon
    have hpi := Real.pi_gt_three
    have hrad := arcB1_radius_pos
    rcases hcon with h | h
    · linarith
    · linarith

/-- C2: the minor and major lengths on the same unit circle sum to `2 r`,
the diameter, and `2 r` is provably different from the full circumference
`2 pi r` that the claim requires the pair to sum to. -/
theorem c2_minor_major_sum_code_bug :
    arcB1.length = some (2 * arcB1.radius - arcB1.short) ∧
    arcB2.length = some arcB2.short ∧
    (2 * arcB1.radius - arcB1.short) + arcB2.short = 2 * arcB1.radius ∧
    2 * arcB1.radius ≠ 2 * Real.pi * arcB1.radius := by
  have hshort : arcB2.short = arcB1.short := rfl
  refine ⟨?_, ?_, ?_, ?_⟩
  · unfold Arc.length
    rw [arcB1_classification]
    simp
  · unfold Arc.length
    rw [arcB2_classification]
    simp
  · rw [hshort]
    ring
  · have hpi := Real.pi_gt_three
    have hrad := arcB1_radius_pos
    intro hcon
    nlinarith [mul_pos hrad (show (0 : ℝ) < Real.pi - 1 by linarith)]

/-- Single-piece path for the rendering witness. -/
def pathW : ChannelPath := ⟨[PathPiece.lineSegment ⟨⟨0, 0⟩, ⟨1, 2⟩⟩]⟩

/-- C10: rendered coordinates are the stored coordinates unchanged: a line
segment's command is exactly `L end.x end.y` for both inversion flags, an
arc's command carries the stored end point raw, and a nonempty path's
output begins with a move-to of the first piece's stored start point;
inversion never transforms a coordinate. -/
theorem c10_coordinates_unchanged :
    (∀ (l : LineSegment) (invertY : Bool),
      l.svg_path_command invertY = [SVGCmd.line l.endPoint.x l.endPoint.y]) ∧
    (∀ (a : Arc) (invertY : Bool) (cmds : List SVGCmd),
      a.svg_path_command invertY = some cmds →
      ∃ r laf sf, cmds = [SVGCmd.arc r laf sf a.endPoint.x a.endPoint.y]) ∧
    (∀ (p : ChannelPath) (invertY : Bool) (first : PathPiece)
      (rest : List PathPiece) (cmds : List SVGCmd),
      p.pieces = first :: rest → p.svg_path_command invertY = some cmds →
      ∃ tail, cmds = SVGCmd.move first.startPoint.x first.startPoint.y :: tail) := by
  refine ⟨fun l invertY => rfl, ?_, ?_⟩
  · intro a invertY cmds h
    unfold Arc.svg_path_command at h
    cases hv : a.svg_representation_values invertY with
    | none =>
      rw [hv] at h
      cases h
    | some v =>
      rw [hv] at h
      simp only [Option.map_some', Option.some.injEq] at h
      exact ⟨v.1, v.2.1, v.2.2, h.symm⟩
  · intro p invertY first rest cmds hp h
    unfold ChannelPath.svg_path_command at h
    rw [hp] at h
    cases hm : (first :: rest).mapM fun piece =>
        match piece with
        | PathPiece.arc a => a.svg_path_command invertY
        | PathPiece.lineSegment l => some (l.svg_path_command invertY) with
    | none =>
      rw [hm] at h
      cases h
    | some ls =>
      rw [hm] at h
      simp only [Option.map_some', Option.some.injEq] at h
      exact ⟨ls.flatten, h.symm⟩

/-- Witness for C10 at a concrete one-segment path. -/
theorem c10_coordinates_unchanged_witness :
    pathW.svg_path_command true = some [SVGCmd.move 0 0, SVGCmd.line 1 2] ∧
    ∃ tail, [SVGCmd.move 0 0, SVGCmd.line 1 2] = SVGCmd.move 0 0 :: tail :=
  ⟨rfl, c10_coordinates_unchanged.2.2 pathW true
    (PathPiece.lineSegment ⟨⟨0, 0⟩, ⟨1, 2⟩⟩) [] [SVGCmd.move 0 0, SVGCmd.line 1 2] rfl rfl⟩

end Mmft
